import Mathlib

/-!
Verification of the metrics demo service (`src/server.js`).

The service is an Express application instrumented with five metric
instruments.  The embedding has three layers:

* the metric instruments (counter, gauge, histogram) as plain data with their
  update operations;
* the response object handed to a route handler, with its terminal writes;
* the code of `server.js`: the generator tick, the completion callback of the
  metrics middleware and the five route handlers.

JavaScript numbers that hold counts are natural numbers here and durations are
rationals; the random draw is a rational that is an IEEE 754 double, and its
product with 100 is rounded to the nearest double.  Every clock or random
reading is an explicit argument.
-/

namespace Server

/-! ## Metric instruments -/

/-- Label set of `app_requests_total` and `app_response_time_seconds`
(`labelNames: ['method', 'route', 'status_code']`). -/
structure Labels where
  method : String
  route : String
  status_code : Nat
  deriving DecidableEq, Repr

/-- Modelled from the spec: the series table of a labeled instrument of the
metrics library (section 3, "a concrete recorded value is keyed by the
label-name to label-value mapping"), in order of creation. -/
abbrev Series (κ ν : Type) := List (κ × ν)

/-- Current value of the series with labels `k`, if it was ever created. -/
def seriesFind {κ ν : Type} [DecidableEq κ] : Series κ ν → κ → Option ν
  | [], _ => none
  | (k', v) :: rest, k => if k' = k then some v else seriesFind rest k

/-- Update the series with labels `k` by `f`, creating it from `init` on first
use; every other series is left alone. -/
def seriesUpdate {κ ν : Type} [DecidableEq κ] (init : ν) (f : ν → ν) :
    Series κ ν → κ → Series κ ν
  | [], k => [(k, f init)]
  | (k', v) :: rest, k =>
    if k' = k then (k', f v) :: rest else (k', v) :: seriesUpdate init f rest k

/-- Modelled from the spec: `counter.increment(labels, amount=1)` of the metrics
library (section 4.1): "creates the labeled series on first use with value 0,
then adds amount". -/
def counterInc {κ : Type} [DecidableEq κ] (c : Series κ Nat) (labels : κ) : Series κ Nat :=
  seriesUpdate 0 (fun v => v + 1) c labels

/-- Value a counter reports for `labels`; a series never created has no line
and counts as 0. -/
def counterValue {κ : Type} [DecidableEq κ] (c : Series κ Nat) (labels : κ) : Nat :=
  (seriesFind c labels).getD 0

/-- Upper bounds of `app_response_time_seconds` (`buckets: [0.1, 0.5, 1, 2, 5]`). -/
def buckets : List ℚ := [0.1, 0.5, 1, 2, 5]

/-- One histogram series: a count per bucket (one per upper bound, then the
implicit +infinity bucket), the total count and the running sum. -/
structure HistogramSeries where
  bucketCounts : List Nat
  count : Nat
  sum : ℚ
  deriving DecidableEq, Repr

/-- Index of the first bucket whose upper bound is `≥ value`; the length of
`bounds` stands for the +infinity bucket. -/
def findBound : List ℚ → ℚ → Nat
  | [], _ => 0
  | b :: bs, value => if value ≤ b then 0 else findBound bs value + 1

/-- Add one to the entry at position `i`. -/
def bumpAt : List Nat → Nat → List Nat
  | [], _ => []
  | c :: cs, 0 => (c + 1) :: cs
  | c :: cs, i + 1 => c :: bumpAt cs i

/-- A histogram series before its first observation. -/
def emptyHistogram (bounds : List ℚ) : HistogramSeries :=
  { bucketCounts := List.replicate (bounds.length + 1) 0, count := 0, sum := 0 }

/-- Modelled from the spec: `histogram.observe(labels, value)` of the metrics
library on one series (section 4.1): "increments the count in the first bucket
whose upper bound ≥ value (... plus an implicit +infinity bucket), increments
total count, adds value to running sum". -/
def observeSeries (bounds : List ℚ) (value : ℚ) (h : HistogramSeries) : HistogramSeries :=
  { bucketCounts := bumpAt h.bucketCounts (findBound bounds value),
    count := h.count + 1,
    sum := h.sum + value }

/-- Modelled from the spec: `histogram.observe(labels, value)` on the labeled
instrument: the series is created on first use. -/
def histogramObserve {κ : Type} [DecidableEq κ] (bounds : List ℚ)
    (hist : Series κ HistogramSeries) (labels : κ) (value : ℚ) : Series κ HistogramSeries :=
  seriesUpdate (emptyHistogram bounds) (observeSeries bounds value) hist labels

/-- Total observation count a histogram reports for `labels` (0 when the series
was never created). -/
def histogramCount {κ : Type} [DecidableEq κ] (hist : Series κ HistogramSeries) (labels : κ) :
    Nat :=
  ((seriesFind hist labels).map (fun h => h.count)).getD 0

/-- Running prefix sums of a list of counts, starting from `acc`. -/
def cumulativeFrom : Nat → List Nat → List Nat
  | _, [] => []
  | acc, c :: cs => (acc + c) :: cumulativeFrom (acc + c) cs

/-- Cumulative bucket counts of a series: entry `i` is the number of
observations that fell into bucket `i` or a lower one ("buckets are
cumulative"). -/
def cumulativeCounts (h : HistogramSeries) : List Nat :=
  cumulativeFrom 0 h.bucketCounts

/-- A histogram series after observing `values` in order. -/
def observeAll (bounds : List ℚ) (values : List ℚ) : HistogramSeries :=
  values.foldl (fun h v => observeSeries bounds v h) (emptyHistogram bounds)

/-- A list of counts is non-decreasing from one bucket to the next. -/
def nonDecreasing : List Nat → Bool
  | a :: b :: rest => decide (a ≤ b) && nonDecreasing (b :: rest)
  | _ => true

/-- The process-wide registry: the five instruments `server.js` creates.  The
default process metrics (`collectDefaultMetrics()`) are defined by the library
and carry no state that the application code touches. -/
structure Registry where
  requestCounter : Series Labels Nat
  responseTimeHistogram : Series Labels HistogramSeries
  memoryGauge : Int
  errorCounter : Series String Nat
  activeUsersGauge : Int
  deriving DecidableEq, Repr

/-- The registry right after `server.js` has created its instruments: no
labeled series yet, unlabeled gauges at 0. -/
def Registry.initial : Registry :=
  { requestCounter := [], responseTimeHistogram := [], memoryGauge := 0,
    errorCounter := [], activeUsersGauge := 0 }

/-! ## The response object -/

/-- A JavaScript value that can be thrown or handed to `res.end`: a string or
an `Error` object (its `name` and `message`). -/
inductive JsValue
  | str (s : String)
  | errorObject (name message : String)
  deriving DecidableEq, Repr

/-- A scalar inside a JSON body. -/
inductive JsonValue
  | str (s : String)
  | num (q : ℚ)
  deriving DecidableEq, Repr

/-- Payload of an emitted response; `empty` is a response without a body. -/
inductive Body
  | text (s : String)
  | json (fields : List (String × JsonValue))
  | empty
  deriving DecidableEq, Repr

/-- A response as it goes out to the client. -/
structure Emitted where
  status : Nat
  contentType : Option String
  body : Body
  deriving DecidableEq, Repr

/-- The response object `res` of one request: the pending status code and
content type, the number of terminal writes (`send`, `json`, `end`) performed
on it, and the responses that went out. -/
structure Res where
  statusCode : Nat
  contentType : Option String
  writes : Nat
  sent : List Emitted
  deriving DecidableEq, Repr

/-- The response object as the framework hands it to a handler. -/
def Res.fresh : Res := { statusCode := 200, contentType := none, writes := 0, sent := [] }

/-- What a terminal write reads of the request: its method, and whether its
conditional headers (`If-None-Match`, `If-Modified-Since`, unless
`Cache-Control: no-cache`) match the response that would carry a given body. -/
structure Incoming where
  method : String
  validatorsMatch : Body → Bool

/-- Express `req.fresh` at the moment a body is sent: only for `GET` and
`HEAD`, only with a 2xx or 304 status, and only when the validators match. -/
def isFresh (req : Incoming) (statusCode : Nat) (body : Body) : Bool :=
  (req.method == "GET" || req.method == "HEAD") &&
  ((decide (200 ≤ statusCode) && decide (statusCode < 300)) || statusCode == 304) &&
  req.validatorsMatch body

/-- What a handler works on: its response object and the shared registry. -/
structure HandlerState where
  res : Res
  registry : Registry
  deriving DecidableEq, Repr

/-- A handler body: it may throw a JavaScript value, and its effects on the
response object and the registry persist when it does. -/
abbrev Handler := ExceptT JsValue (StateM HandlerState)

/-- The error Node raises when a header is set after the response went out. -/
def headersSentError : JsValue :=
  .errorObject "Error [ERR_HTTP_HEADERS_SENT]"
    "Cannot set headers after they are sent to the client"

/-- The error Node raises when `end` is given a chunk that is neither a string
nor a buffer. -/
def invalidChunkError : JsValue :=
  .errorObject "TypeError [ERR_INVALID_ARG_TYPE]"
    "The chunk argument must be of type string or an instance of Buffer or Uint8Array"

/-- Express `res.status(code)`. -/
def resStatus (code : Nat) : Handler Unit :=
  modify fun st => { st with res := { st.res with statusCode := code } }

/-- Express `res.set('Content-Type', value)`: throws once the response went out. -/
def resSet (value : String) : Handler Unit := do
  let st ← get
  if st.res.sent.isEmpty then
    set { st with res := { st.res with contentType := some value } }
  else
    throw headersSentError

/-- Count one terminal write on the response object. -/
def noteWrite : Handler Unit :=
  modify fun st => { st with res := { st.res with writes := st.res.writes + 1 } }

/-- Put a response on the wire with the pending status code.  Node sends no
body in answer to `HEAD`, nor with status 204 or 304. -/
def emit (req : Incoming) (contentType : Option String) (body : Body) : Handler Unit :=
  modify fun st =>
    { st with res := { st.res with
        sent := st.res.sent ++
          [{ status := st.res.statusCode, contentType := contentType,
             body := if req.method == "HEAD" || st.res.statusCode == 204
                       || st.res.statusCode == 304 then .empty else body }] } }

/-- The common part of Express `res.send` and `res.json`, a terminal write.  It
sets the content type header, which throws when a response already went out;
a fresh request turns the status into 304; with status 204 or 304 the content
type and the body are stripped. -/
def sendBody (req : Incoming) (defaultType : String) (body : Body) : Handler Unit := do
  noteWrite
  let st ← get
  if st.res.sent.isEmpty then
    let type := st.res.contentType.getD defaultType
    if isFresh req st.res.statusCode body then
      resStatus 304
    let st ← get
    if st.res.statusCode == 204 || st.res.statusCode == 304 then
      emit req none .empty
    else
      emit req (some type) body
  else
    throw headersSentError

/-- Express `res.send(text)`. -/
def resSend (req : Incoming) (text : String) : Handler Unit :=
  sendBody req "text/html; charset=utf-8" (.text text)

/-- Express `res.json(object)`: the JSON text goes through `send`. -/
def resJson (req : Incoming) (fields : List (String × JsonValue)) : Handler Unit :=
  sendBody req "application/json; charset=utf-8" (.json fields)

/-- Node `res.end(chunk)`: a terminal write.  On a finished response nothing more
goes out; otherwise a string chunk is sent as the body and any other value is
rejected with a `TypeError`. -/
def resEnd (req : Incoming) (chunk : JsValue) : Handler Unit := do
  noteWrite
  let st ← get
  if st.res.sent.isEmpty then
    match chunk with
    | .str text => emit req st.res.contentType (.text text)
    | .errorObject _ _ => throw invalidChunkError
  else
    pure ()

/-- Run a handler on a fresh response object: what it threw, if anything, and
the final response object and registry. -/
def runHandler (h : Handler Unit) (reg : Registry) : Except JsValue Unit × HandlerState :=
  (ExceptT.run h).run { res := Res.fresh, registry := reg }

/-! ## `server.js` -/

/-- The integer nearest to `q`, the even one when two are equally near. -/
def roundHalfEven (q : ℚ) : Int :=
  if q - ⌊q⌋ < 1 / 2 then ⌊q⌋
  else if 1 / 2 < q - ⌊q⌋ then ⌊q⌋ + 1
  else if ⌊q⌋ % 2 = 0 then ⌊q⌋
  else ⌊q⌋ + 1

/-- Binary exponent of the spacing of IEEE 754 doubles around `x`: 52 below the
exponent of `x`, and never below the subnormal spacing `2 ^ (-1074)`. -/
def ulpExponent (x : ℚ) : Int := max (-1074) (Int.log 2 |x| - 52)

/-- The IEEE 754 double nearest to `x`, ties to even: the result of a JavaScript
arithmetic operation whose exact value is `x` (for magnitudes below the
overflow threshold). -/
def roundDouble (x : ℚ) : ℚ :=
  (roundHalfEven (x / 2 ^ ulpExponent x) : ℚ) * 2 ^ ulpExponent x

/-- Whether the rational `x` is an IEEE 754 double. -/
def isDouble (x : ℚ) : Bool := decide (roundDouble x = x)

/-- The value both active-user signals compute from a random draw:
`Math.floor(Math.random() * 100) + 1`, the product being a double. -/
def activeUsers (random : ℚ) : Int := ⌊roundDouble (random * 100)⌋ + 1

/-- One tick of the `setInterval` generator (lines 45-48). -/
def generatorTick (random : ℚ) (reg : Registry) : Registry :=
  { reg with activeUsersGauge := activeUsers random }

/-- The request object as the completion callback reads it: `req.method`,
`req.path` and `req.route.path` (present when the router matched a route). -/
structure Req where
  method : String
  path : String
  route : Option String
  deriving DecidableEq, Repr

/-- The expression `req.route ? req.route.path : req.path`. -/
def routeLabel (req : Req) : String :=
  match req.route with
  | some pattern => pattern
  | none => req.path

/-- The three metric updates of the completion callback on the registry, each
of which may throw. -/
structure Instruments where
  inc : Labels → Registry → Except JsValue Registry
  observe : Labels → ℚ → Registry → Except JsValue Registry
  setMemory : Int → Registry → Except JsValue Registry

/-- Perform one metric update: the registry changes when it succeeds, and the
thrown value is raised when it does not. -/
def metricUpdate (update : Registry → Except JsValue Registry) : Handler Unit := do
  let st ← get
  match update st.registry with
  | .ok reg => set { st with registry := reg }
  | .error e => throw e

/-- The `res.on('finish', ...)` callback of the metrics middleware (lines
54-71) over given instrument operations; it runs on the response object and
the registry.  There is no `try` in it. -/
def finishCallback (ops : Instruments) (req : Req) (start now : Int) (heapUsed : Nat) :
    Handler Unit := do
  let duration : ℚ := ((now - start : Int) : ℚ) / 1000
  let res := (← get).res
  metricUpdate (ops.inc
    { method := req.method, route := routeLabel req, status_code := res.statusCode })
  let res := (← get).res
  metricUpdate (ops.observe
    { method := req.method, route := routeLabel req, status_code := res.statusCode } duration)
  let memoryUsage := heapUsed
  metricUpdate (ops.setMemory memoryUsage)

/-- The instrument operations of the metrics library on the registry of
`server.js`; on the arguments the callback passes none of them throws. -/
def promClient : Instruments :=
  { inc := fun labels reg =>
      .ok { reg with requestCounter := counterInc reg.requestCounter labels },
    observe := fun labels value reg =>
      .ok { reg with
        responseTimeHistogram := histogramObserve buckets reg.responseTimeHistogram labels value },
    setMemory := fun value reg => .ok { reg with memoryGauge := value } }

/-- Instrument operations whose counter increment throws. -/
def throwingInc : Instruments :=
  { promClient with inc := fun _ _ => .error (.errorObject "Error" "increment failed") }

/-- Instrument operations whose histogram observation throws. -/
def throwingObserve : Instruments :=
  { promClient with observe := fun _ _ _ => .error (.errorObject "Error" "observe failed") }

/-- Run the completion callback on a finished response object and a registry:
what it threw, if anything, and the state it leaves. -/
def runFinish (ops : Instruments) (req : Req) (res : Res) (start now : Int) (heapUsed : Nat)
    (reg : Registry) : Except JsValue Unit × HandlerState :=
  (ExceptT.run (finishCallback ops req start now heapUsed)).run { res := res, registry := reg }

/-- The registry after the completion callback ran with the library's
instruments. -/
def onFinish (req : Req) (res : Res) (start now : Int) (heapUsed : Nat)
    (reg : Registry) : Registry :=
  (runFinish promClient req res start now heapUsed reg).2.registry

/-- Handler of `GET /` (lines 76-79): two `res.send` calls in a row; `toLocaleString now`
is `new Date().toLocaleString()`. -/
def rootHandler (req : Incoming) (toLocaleString : Int → String) (now : Int) :
    Handler Unit := do
  resSend req "Prometheus + Grafana + Kubernetes + NGINX - Sistema de Monitoramento"
  resSend req ("🚀 CI/CD TESTE - Deploy Automático " ++ toLocaleString now)

/-- Handler of `GET /healthz` (lines 81-87); `toISOString now` is
`new Date().toISOString()` and `uptime` is `process.uptime()`. -/
def healthzHandler (req : Incoming) (toISOString : Int → String) (now : Int) (uptime : ℚ) :
    Handler Unit := do
  resStatus 200
  resJson req
    [("status", .str "OK"), ("timestamp", .str (toISOString now)), ("uptime", .num uptime)]

/-- The value of a field of a JSON body. -/
def Body.field : Body → String → Option JsonValue
  | .json fields, name => fields.lookup name
  | .text _, _ => none
  | .empty, _ => none

/-- Handler of `GET /simulate-error` (lines 90-93). -/
def simulateErrorHandler (req : Incoming) : Handler Unit := do
  modify fun st =>
    { st with registry := { st.registry with
        errorCounter := counterInc st.registry.errorCounter "simulated_error" } }
  resStatus 500
  resJson req [("error", .str "Erro simulado para teste")]

/-- Handler of `GET /users` (lines 96-99). -/
def usersHandler (req : Incoming) (random : ℚ) : Handler Unit := do
  let users := activeUsers random
  resJson req [("active_users", .num users)]

/-- The constant `client.register.contentType` of the metrics library. -/
def contentType : String := "text/plain; version=0.0.4; charset=utf-8"

/-- Handler of `GET /metrics` (lines 101-108); `metrics` is `client.register.metrics()`,
which yields the exposition text or fails with a thrown value. -/
def metricsHandler (req : Incoming) (metrics : Registry → Except JsValue String) :
    Handler Unit :=
  tryCatch
    (do
      resSet contentType
      let st ← get
      match metrics st.registry with
      | .ok text => resEnd req (.str text)
      | .error e => throw e)
    (fun error => do
      resStatus 500
      resEnd req error)

/-! ## Sequences of completed requests and generator ticks -/

/-- The routes `server.js` registers. -/
inductive Route
  | root
  | healthz
  | simulateError
  | users
  | metrics
  deriving DecidableEq, Repr

/-- The pattern each route was registered with. -/
def Route.path : Route → String
  | .root => "/"
  | .healthz => "/healthz"
  | .simulateError => "/simulate-error"
  | .users => "/users"
  | .metrics => "/metrics"

/-- A request whose response finished: what the completion callback reads
(`req.method`, `req.path`, the matched route, the response object), the two
clock readings and the heap usage it samples. -/
structure Completed where
  method : String
  path : String
  matched : Option Route
  res : Res
  start : Int
  finish : Int
  heapUsed : Nat
  deriving DecidableEq, Repr

/-- The request object of a completed request. -/
def Completed.req (c : Completed) : Req :=
  { method := c.method, path := c.path, route := c.matched.map Route.path }

/-- The label triple under which a completed request is recorded. -/
def Completed.labels (c : Completed) : Labels :=
  { method := c.method, route := routeLabel c.req, status_code := c.res.statusCode }

/-- The handler registered for each route, over the readings the handlers take
from their environment: the two date renderings, the clock, the process
uptime, a random draw and the serializer of the registry. -/
def Route.handler (req : Incoming) (toLocaleString toISOString : Int → String) (now : Int)
    (uptime random : ℚ) (metrics : Registry → Except JsValue String) : Route → Handler Unit
  | .root => rootHandler req toLocaleString now
  | .healthz => healthzHandler req toISOString now uptime
  | .simulateError => simulateErrorHandler req
  | .users => usersHandler req random
  | .metrics => metricsHandler req metrics

/-- What the handler of the matched route does to the registry before the
response finishes: only `/simulate-error` touches an instrument. -/
def handlerEffect : Option Route → Registry → Registry
  | some .simulateError, reg =>
    { reg with errorCounter := counterInc reg.errorCounter "simulated_error" }
  | _, reg => reg

/-- One thing that happens to the registry. -/
inductive Event
  | request (c : Completed)
  | tick (random : ℚ)

/-- The registry after one event: a completed request runs its handler and then
the completion callback; a tick runs the generator. -/
def step (reg : Registry) : Event → Registry
  | .request c =>
    onFinish c.req c.res c.start c.finish c.heapUsed (handlerEffect c.matched reg)
  | .tick random => generatorTick random reg

/-- The registry after a sequence of events, from the initial registry. -/
def run (events : List Event) : Registry :=
  events.foldl step Registry.initial

/-- Whether a completed request counts for the label triple `labels`: its
method and response status are those of the triple, and the route of the
triple is the pattern of the matched route or, when no route matched, the raw
path. -/
def countsFor (labels : Labels) (c : Completed) : Bool :=
  c.method == labels.method && c.res.statusCode == labels.status_code &&
  (match c.matched with
   | some .root => labels.route == "/"
   | some .healthz => labels.route == "/healthz"
   | some .simulateError => labels.route == "/simulate-error"
   | some .users => labels.route == "/users"
   | some .metrics => labels.route == "/metrics"
   | none => labels.route == c.path)

/-- Number of completed requests in `events` that count for `labels`. -/
def requestCount (labels : Labels) : List Event → Nat
  | [] => 0
  | .request c :: rest =>
    (if countsFor labels c then 1 else 0) + requestCount labels rest
  | .tick _ :: rest => requestCount labels rest

/-! ## Lemmas on series tables -/

theorem seriesFind_update_self {κ ν : Type} [DecidableEq κ] (init : ν) (f : ν → ν)
    (s : Series κ ν) (k : κ) :
    seriesFind (seriesUpdate init f s k) k = some (f ((seriesFind s k).getD init)) := by
  induction s with
  | nil => simp [seriesUpdate, seriesFind]
  | cons p rest ih =>
    obtain ⟨k', v⟩ := p
    by_cases hk : k' = k
    · simp [seriesUpdate, seriesFind, hk]
    · simp [seriesUpdate, seriesFind, hk, ih]

theorem seriesFind_update_other {κ ν : Type} [DecidableEq κ] (init : ν) (f : ν → ν)
    (s : Series κ ν) (k k' : κ) (hne : k' ≠ k) :
    seriesFind (seriesUpdate init f s k) k' = seriesFind s k' := by
  induction s with
  | nil => simp [seriesUpdate, seriesFind, Ne.symm hne]
  | cons p rest ih =>
    obtain ⟨k₀, v⟩ := p
    by_cases hk : k₀ = k
    · subst hk
      simp [seriesUpdate, seriesFind, Ne.symm hne]
    · by_cases hk' : k₀ = k'
      · subst hk'
        simp [seriesUpdate, seriesFind, hk]
      · simp [seriesUpdate, seriesFind, hk, hk', ih]

theorem seriesFind_update {κ ν : Type} [DecidableEq κ] (init : ν) (f : ν → ν)
    (s : Series κ ν) (k k' : κ) :
    seriesFind (seriesUpdate init f s k) k' =
      if k' = k then some (f ((seriesFind s k).getD init)) else seriesFind s k' := by
  by_cases h : k' = k
  · subst h
    simp [seriesFind_update_self]
  · simp [h, seriesFind_update_other init f s k k' h]

theorem counterValue_inc {κ : Type} [DecidableEq κ] (c : Series κ Nat) (k k' : κ) :
    counterValue (counterInc c k) k' = counterValue c k' + (if k' = k then 1 else 0) := by
  unfold counterValue counterInc
  rw [seriesFind_update]
  by_cases h : k' = k
  · subst h
    simp
  · simp [h]

theorem histogramCount_observe {κ : Type} [DecidableEq κ] (bounds : List ℚ)
    (hist : Series κ HistogramSeries) (k k' : κ) (value : ℚ) :
    histogramCount (histogramObserve bounds hist k value) k' =
      histogramCount hist k' + (if k' = k then 1 else 0) := by
  unfold histogramCount histogramObserve
  rw [seriesFind_update]
  by_cases h : k' = k
  · subst h
    cases hs : seriesFind hist k' <;> simp [observeSeries, emptyHistogram]
  · simp [h]

/-- The completion callback with the library's instruments never throws and
leaves the response object as it was. -/
theorem runFinish_promClient (req : Req) (res : Res) (start now : Int)
    (heapUsed : Nat) (reg : Registry) :
    runFinish promClient req res start now heapUsed reg =
      (.ok (), { res := res, registry := { reg with
        requestCounter := counterInc reg.requestCounter
          { method := req.method, route := routeLabel req, status_code := res.statusCode },
        responseTimeHistogram := histogramObserve buckets reg.responseTimeHistogram
          { method := req.method, route := routeLabel req, status_code := res.statusCode }
          (((now - start : Int) : ℚ) / 1000),
        memoryGauge := heapUsed } }) := by
  rfl

theorem onFinish_eq (req : Req) (res : Res) (start now : Int)
    (heapUsed : Nat) (reg : Registry) :
    onFinish req res start now heapUsed reg =
      { reg with
        requestCounter := counterInc reg.requestCounter
          { method := req.method, route := routeLabel req, status_code := res.statusCode },
        responseTimeHistogram := histogramObserve buckets reg.responseTimeHistogram
          { method := req.method, route := routeLabel req, status_code := res.statusCode }
          (((now - start : Int) : ℚ) / 1000),
        memoryGauge := heapUsed } := by
  rfl

theorem handlerEffect_requestCounter (matched : Option Route) (reg : Registry) :
    (handlerEffect matched reg).requestCounter = reg.requestCounter ∧
    (handlerEffect matched reg).responseTimeHistogram = reg.responseTimeHistogram := by
  unfold handlerEffect
  split <;> simp

theorem requestCount_append (labels : Labels) (xs ys : List Event) :
    requestCount labels (xs ++ ys) = requestCount labels xs + requestCount labels ys := by
  induction xs with
  | nil => simp [requestCount]
  | cons e rest ih =>
    cases e <;> simp [requestCount, ih, Nat.add_assoc]

theorem run_append_one (events : List Event) (e : Event) :
    run (events ++ [e]) = step (run events) e := by
  simp [run, List.foldl_append]

theorem step_request_requestCounter (reg : Registry) (c : Completed) :
    (step reg (.request c)).requestCounter = counterInc reg.requestCounter c.labels := by
  simp only [step, onFinish_eq, (handlerEffect_requestCounter c.matched reg).1]
  rfl

theorem step_request_histogram (reg : Registry) (c : Completed) :
    (step reg (.request c)).responseTimeHistogram =
      histogramObserve buckets reg.responseTimeHistogram c.labels
        (((c.finish - c.start : Int) : ℚ) / 1000) := by
  simp only [step, onFinish_eq, (handlerEffect_requestCounter c.matched reg).2]
  rfl

/-- A completed request counts for a label triple exactly when the completion
callback records it under that triple. -/
theorem countsFor_iff (labels : Labels) (c : Completed) :
    countsFor labels c = true ↔ c.labels = labels := by
  obtain ⟨m, r, s⟩ := labels
  rcases hm : c.matched with _ | route
  · simp [countsFor, hm, Completed.labels, Completed.req, routeLabel]
    tauto
  · cases route <;>
      simp [countsFor, hm, Completed.labels, Completed.req, routeLabel, Route.path] <;>
      tauto

theorem requestCount_single (labels : Labels) (e : Event) :
    requestCount labels [e] = 0 ∨ requestCount labels [e] = 1 := by
  cases e with
  | request c =>
    by_cases h : countsFor labels c = true
    · right
      simp [requestCount, h]
    · left
      simp [requestCount, h]
  | tick random =>
    left
    simp [requestCount]

/-- One event changes the request counter series of `labels` only when it is a
completed request that counts for `labels`, and then adds one. -/
theorem step_requestCounter_find (reg : Registry) (e : Event) (labels : Labels) :
    seriesFind (step reg e).requestCounter labels =
      if requestCount labels [e] = 0 then seriesFind reg.requestCounter labels
      else some (counterValue reg.requestCounter labels + 1) := by
  cases e with
  | request c =>
    rw [step_request_requestCounter]
    simp only [requestCount, counterInc, seriesFind_update, counterValue]
    by_cases h : labels = c.labels
    · have hc : countsFor labels c = true := (countsFor_iff labels c).mpr h.symm
      subst h
      simp [hc]
    · have hc : ¬ countsFor labels c = true :=
        fun hc => h ((countsFor_iff labels c).mp hc).symm
      simp [h, hc]
  | tick random => simp [step, generatorTick, requestCount]

/-- One event changes the histogram series of `labels` exactly when it changes
the counter series, and then adds one observation. -/
theorem step_histogram_count (reg : Registry) (e : Event) (labels : Labels) :
    (seriesFind (step reg e).responseTimeHistogram labels).map (fun h => h.count) =
      if requestCount labels [e] = 0 then
        (seriesFind reg.responseTimeHistogram labels).map (fun h => h.count)
      else some (histogramCount reg.responseTimeHistogram labels + 1) := by
  cases e with
  | request c =>
    rw [step_request_histogram]
    simp only [requestCount, histogramObserve, seriesFind_update, histogramCount]
    by_cases h : labels = c.labels
    · have hc : countsFor labels c = true := (countsFor_iff labels c).mpr h.symm
      subst h
      cases hs : seriesFind reg.responseTimeHistogram c.labels <;>
        simp [observeSeries, emptyHistogram, hc]
    · have hc : ¬ countsFor labels c = true :=
        fun hc => h ((countsFor_iff labels c).mp hc).symm
      simp [h, hc]
  | tick random => simp [step, generatorTick, requestCount]

/-- After any sequence of events the request counter has a series for `labels`
exactly when some completed request was recorded under `labels`, and its value
is the number of those requests. -/
theorem run_requestCounter_find (events : List Event) (labels : Labels) :
    seriesFind (run events).requestCounter labels =
      if requestCount labels events = 0 then none else some (requestCount labels events) := by
  induction events using List.reverseRecOn with
  | nil => simp [run, Registry.initial, seriesFind, requestCount]
  | append_singleton rest e ih =>
    rw [run_append_one, step_requestCounter_find, requestCount_append, counterValue, ih]
    rcases requestCount_single labels e with h₁ | h₁
    · simp [h₁]
    · by_cases h₂ : requestCount labels rest = 0
      · simp [h₁, h₂]
      · simp [h₁, h₂]

/-- After any sequence of events the histogram has a series for `labels`
exactly when the counter has one, with the same count. -/
theorem run_histogram_find (events : List Event) (labels : Labels) :
    (seriesFind (run events).responseTimeHistogram labels).map (fun h => h.count) =
      seriesFind (run events).requestCounter labels := by
  induction events using List.reverseRecOn with
  | nil => simp [run, Registry.initial, seriesFind]
  | append_singleton rest e ih =>
    rw [run_append_one, step_histogram_count, step_requestCounter_find, histogramCount,
      counterValue, ih]

theorem run_requestCounter_value (events : List Event) (labels : Labels) :
    counterValue (run events).requestCounter labels = requestCount labels events := by
  rw [counterValue, run_requestCounter_find]
  by_cases h : requestCount labels events = 0
  · simp [h]
  · simp [h]


/-! ## Lemmas on handlers -/

theorem handlerRun_bind {α β : Type} (x : Handler α) (f : α → Handler β) (st : HandlerState) :
    (ExceptT.run (x >>= f)).run st =
      match (ExceptT.run x).run st with
      | (.ok a, st') => (ExceptT.run (f a)).run st'
      | (.error e, st') => (.error e, st') := by
  simp only [ExceptT.run, bind, ExceptT.bind, ExceptT.mk, StateT.bind, StateT.run,
    ExceptT.bindCont]
  rcases x st with ⟨r, st'⟩
  cases r <;> rfl

theorem preserves_bind {α β : Type} (x : Handler α) (f : α → Handler β)
    (hx : ∀ st, ((ExceptT.run x).run st).2.registry = st.registry)
    (hf : ∀ a st, ((ExceptT.run (f a)).run st).2.registry = st.registry) (st : HandlerState) :
    ((ExceptT.run (x >>= f)).run st).2.registry = st.registry := by
  rw [handlerRun_bind]
  have h := hx st
  rcases hrun : (ExceptT.run x).run st with ⟨r, st'⟩
  rw [hrun] at h
  have h' : st'.registry = st.registry := h
  cases r with
  | ok a =>
    show ((ExceptT.run (f a)).run st').2.registry = st.registry
    rw [← h']
    exact hf a st'
  | error e => exact h' 

theorem sendBody_registry (req : Incoming) (defaultType : String) (body : Body)
    (st : HandlerState) :
    ((ExceptT.run (sendBody req defaultType body)).run st).2.registry = st.registry := by
  simp only [sendBody, resStatus, noteWrite, emit]
  by_cases h₁ : st.res.sent.isEmpty = true <;>
  by_cases h₂ : isFresh req st.res.statusCode body = true <;>
  by_cases h₃ : (st.res.statusCode == 204 || st.res.statusCode == 304) = true <;>
  simp [ExceptT.run, bind, ExceptT.bind, ExceptT.mk,
      ExceptT.bindCont, StateT.bind, StateT.run, get, getThe, MonadStateOf.get, StateT.get,
      liftM, monadLift, MonadLift.monadLift, ExceptT.lift, StateT.map, Functor.map, pure,
      ExceptT.pure, StateT.pure, set, StateT.set, modify, modifyGet, MonadStateOf.modifyGet,
      StateT.modifyGet, MonadState.modifyGet, throw, throwThe, MonadExceptOf.throw, h₁, h₂, h₃]

theorem resStatus_registry (code : Nat) (st : HandlerState) :
    ((ExceptT.run (resStatus code)).run st).2.registry = st.registry := by
  rfl

theorem rootHandler_registry (req : Incoming) (toLocaleString : Int → String) (now : Int)
    (reg : Registry) :
    (runHandler (rootHandler req toLocaleString now) reg).2.registry = reg := by
  unfold runHandler rootHandler resSend
  exact preserves_bind _ _ (sendBody_registry _ _ _) (fun _ => sendBody_registry _ _ _) _

theorem healthzHandler_registry (req : Incoming) (toISOString : Int → String) (now : Int)
    (uptime : ℚ) (reg : Registry) :
    (runHandler (healthzHandler req toISOString now uptime) reg).2.registry = reg := by
  unfold runHandler healthzHandler resJson
  exact preserves_bind _ _ (resStatus_registry _) (fun _ => sendBody_registry _ _ _) _

theorem usersHandler_registry (req : Incoming) (random : ℚ) (reg : Registry) :
    (runHandler (usersHandler req random) reg).2.registry = reg := by
  unfold runHandler usersHandler resJson
  exact sendBody_registry _ _ _ _

theorem simulateErrorHandler_registry (req : Incoming) (reg : Registry) :
    (runHandler (simulateErrorHandler req) reg).2.registry =
      { reg with errorCounter := counterInc reg.errorCounter "simulated_error" } := by
  unfold runHandler simulateErrorHandler resJson
  rw [handlerRun_bind]
  exact preserves_bind _ _ (resStatus_registry _) (fun _ => sendBody_registry _ _ _) _

theorem metricsHandler_registry (req : Incoming) (metrics : Registry → Except JsValue String)
    (reg : Registry) :
    (runHandler (metricsHandler req metrics) reg).2.registry = reg := by
  simp only [runHandler, metricsHandler]
  by_cases hh : (req.method == "HEAD") = true <;>
  cases h : metrics reg with
  | ok text => simp [tryCatch, tryCatchThe, MonadExceptOf.tryCatch, ExceptT.tryCatch,
      ExceptT.run, ExceptT.mk, resSet, resEnd, resStatus, noteWrite, emit, Res.fresh,
      bind, ExceptT.bind, ExceptT.bindCont, StateT.bind, StateT.run, get, getThe,
      MonadStateOf.get, StateT.get, liftM, monadLift, MonadLift.monadLift, ExceptT.lift,
      StateT.map, Functor.map, pure, ExceptT.pure, StateT.pure, set, StateT.set, h,
      modify, modifyGet, MonadStateOf.modifyGet, StateT.modifyGet, MonadState.modifyGet]
  | error e =>
    cases e <;> simp [tryCatch, tryCatchThe, MonadExceptOf.tryCatch, ExceptT.tryCatch,
      ExceptT.run, ExceptT.mk, resSet, resEnd, resStatus, noteWrite, emit, Res.fresh,
      bind, ExceptT.bind, ExceptT.bindCont, StateT.bind, StateT.run, get, getThe,
      MonadStateOf.get, StateT.get, liftM, monadLift, MonadLift.monadLift, ExceptT.lift,
      StateT.map, Functor.map, pure, ExceptT.pure, StateT.pure, set, StateT.set, h,
      modify, modifyGet, MonadStateOf.modifyGet, StateT.modifyGet, MonadState.modifyGet,
      throw, throwThe, MonadExceptOf.throw]

/-- Whatever the request and the environment readings, running the handler of a
route changes the registry exactly as `handlerEffect` says. -/
theorem handler_registry_eq_handlerEffect (req : Incoming)
    (toLocaleString toISOString : Int → String)
    (now : Int) (uptime random : ℚ) (metrics : Registry → Except JsValue String)
    (route : Route) (reg : Registry) :
    (runHandler (route.handler req toLocaleString toISOString now uptime random metrics)
        reg).2.registry = handlerEffect (some route) reg := by
  cases route with
  | root => exact rootHandler_registry req toLocaleString now reg
  | healthz => exact healthzHandler_registry req toISOString now uptime reg
  | simulateError => exact simulateErrorHandler_registry req reg
  | users => exact usersHandler_registry req random reg
  | metrics => exact metricsHandler_registry req metrics reg


theorem routeLabel_eq (m q : String) (p : Option String) :
    routeLabel { method := m, path := q, route := p } = p.getD q := by
  cases p <;> rfl

theorem runHandler_simulateError (v : Body → Bool) (reg : Registry) :
    runHandler (simulateErrorHandler { method := "GET", validatorsMatch := v }) reg =
      (.ok (),
        { res := { statusCode := 500, contentType := none, writes := 1,
                   sent := [{ status := 500,
                              contentType := some "application/json; charset=utf-8",
                              body := .json [("error", .str "Erro simulado para teste")] }] },
          registry := { reg with
            errorCounter := counterInc reg.errorCounter "simulated_error" } }) := by
  rfl

/-- What a `GET` request to a handler that sends `body` with status 200 through
`res.send` or `res.json` gets: 304 without body when the request is fresh, the
body with status 200 otherwise. -/
theorem sendBody_get_200 (v : Body → Bool) (defaultType : String) (body : Body)
    (reg : Registry) :
    (ExceptT.run (sendBody { method := "GET", validatorsMatch := v } defaultType body)).run
        { res := Res.fresh, registry := reg } =
      (.ok (),
        { res := { statusCode := if v body then 304 else 200, contentType := none,
                   writes := 1,
                   sent := [if v body then
                              { status := 304, contentType := none, body := .empty }
                            else
                              { status := 200, contentType := some defaultType,
                                body := body }] },
          registry := reg }) := by
  cases h : v body with
  | false =>
    have hf : isFresh { method := "GET", validatorsMatch := v } 200 body = false := by
      simp [isFresh, h]
    simp only [sendBody, resStatus, noteWrite, emit, Res.fresh]
    simp [ExceptT.run, bind, ExceptT.bind, ExceptT.mk,
      ExceptT.bindCont, StateT.bind, StateT.run, get, getThe, MonadStateOf.get, StateT.get,
      liftM, monadLift, MonadLift.monadLift, ExceptT.lift, StateT.map, Functor.map, pure,
      ExceptT.pure, StateT.pure, set, StateT.set, modify, modifyGet, MonadStateOf.modifyGet,
      StateT.modifyGet, MonadState.modifyGet, hf]
  | true =>
    have hf : isFresh { method := "GET", validatorsMatch := v } 200 body = true := by
      simp [isFresh, h]
    simp only [sendBody, resStatus, noteWrite, emit, Res.fresh]
    simp [ExceptT.run, bind, ExceptT.bind, ExceptT.mk,
      ExceptT.bindCont, StateT.bind, StateT.run, get, getThe, MonadStateOf.get, StateT.get,
      liftM, monadLift, MonadLift.monadLift, ExceptT.lift, StateT.map, Functor.map, pure,
      ExceptT.pure, StateT.pure, set, StateT.set, modify, modifyGet, MonadStateOf.modifyGet,
      StateT.modifyGet, MonadState.modifyGet, hf]

/-! ## Lemmas on histogram series -/

theorem bumpAt_length (cs : List Nat) (i : Nat) : (bumpAt cs i).length = cs.length := by
  induction cs generalizing i with
  | nil => rfl
  | cons c rest ih =>
    cases i with
    | zero => rfl
    | succ j => simp [bumpAt, ih]

theorem bumpAt_sum (cs : List Nat) (i : Nat) (hi : i < cs.length) :
    (bumpAt cs i).sum = cs.sum + 1 := by
  induction cs generalizing i with
  | nil => simp at hi
  | cons c rest ih =>
    cases i with
    | zero => simp [bumpAt]; omega
    | succ j =>
      have hj : j < rest.length := by simpa using hi
      simp [bumpAt, ih j hj]; omega

theorem findBound_le (bounds : List ℚ) (value : ℚ) : findBound bounds value ≤ bounds.length := by
  induction bounds with
  | nil => simp [findBound]
  | cons b rest ih =>
    by_cases h : value ≤ b
    · simp [findBound, h]
    · simp [findBound, h, ih]

/-- Observing values keeps one count per bucket, keeps the counts adding up to
the total count, and raises the total count by the number of values. -/
theorem foldl_observe_invariant (bounds : List ℚ) (values : List ℚ) (h : HistogramSeries)
    (hlen : h.bucketCounts.length = bounds.length + 1) (hsum : h.bucketCounts.sum = h.count) :
    (values.foldl (fun h v => observeSeries bounds v h) h).bucketCounts.length =
        bounds.length + 1 ∧
    (values.foldl (fun h v => observeSeries bounds v h) h).bucketCounts.sum =
        (values.foldl (fun h v => observeSeries bounds v h) h).count ∧
    (values.foldl (fun h v => observeSeries bounds v h) h).count = h.count + values.length := by
  induction values generalizing h with
  | nil => exact ⟨hlen, hsum, rfl⟩
  | cons v rest ih =>
    have hlt : findBound bounds v < h.bucketCounts.length := by
      have := findBound_le bounds v
      omega
    have hlen' : (observeSeries bounds v h).bucketCounts.length = bounds.length + 1 := by
      simp [observeSeries, bumpAt_length, hlen]
    have hsum' : (observeSeries bounds v h).bucketCounts.sum = (observeSeries bounds v h).count := by
      simp [observeSeries, bumpAt_sum _ _ hlt, hsum]
    obtain ⟨h₁, h₂, h₃⟩ := ih (observeSeries bounds v h) hlen' hsum'
    refine ⟨h₁, h₂, ?_⟩
    rw [List.foldl_cons, h₃]
    simp [observeSeries]
    omega

theorem cumulativeFrom_nonDecreasing (acc : Nat) (cs : List Nat) :
    nonDecreasing (cumulativeFrom acc cs) = true := by
  induction cs generalizing acc with
  | nil => rfl
  | cons c rest ih =>
    cases rest with
    | nil => rfl
    | cons c' rest' =>
      have := ih (acc + c)
      simp only [cumulativeFrom] at this ⊢
      simp [nonDecreasing, this]

theorem cumulativeFrom_getLast (acc : Nat) (c : Nat) (cs : List Nat) :
    (cumulativeFrom acc (c :: cs)).getLast? = some (acc + (c :: cs).sum) := by
  induction cs generalizing acc c with
  | nil => simp [cumulativeFrom]
  | cons c' rest ih =>
    have := ih (acc + c) c'
    simp only [cumulativeFrom] at this ⊢
    rw [List.getLast?_cons_cons, this]
    simp [Nat.add_assoc]

/-! ## Lemmas on double rounding -/

theorem roundHalfEven_bounds (q : ℚ) :
    ⌊q⌋ ≤ roundHalfEven q ∧ roundHalfEven q ≤ ⌊q⌋ + 1 := by
  unfold roundHalfEven
  split_ifs <;> constructor <;> omega

theorem roundHalfEven_intCast (z : Int) : roundHalfEven (z : ℚ) = z := by
  simp [roundHalfEven]

theorem roundHalfEven_le (q : ℚ) (z : Int) (h : q < z + 1 / 2) : roundHalfEven q ≤ z := by
  have hq : (⌊q⌋ : ℚ) ≤ q := Int.floor_le q
  have hf : ⌊q⌋ ≤ z := by
    have h' : ⌊q⌋ < z + 1 := by
      rw [Int.floor_lt]
      push_cast
      linarith
    omega
  unfold roundHalfEven
  by_cases h1 : q - ⌊q⌋ < 1 / 2
  · rw [if_pos h1]
    exact hf
  · have h2 : (⌊q⌋ : ℚ) < z := by linarith [not_lt.mp h1]
    have h3 : ⌊q⌋ < z := by exact_mod_cast h2
    split_ifs <;> omega

theorem roundHalfEven_le_of_le (q : ℚ) (z : Int) (h : q ≤ z) : roundHalfEven q ≤ z :=
  roundHalfEven_le q z (by linarith)

theorem two_zpow_pos (e : Int) : (0 : ℚ) < 2 ^ e := zpow_pos (by norm_num) e

theorem roundDouble_nonneg (x : ℚ) (hx : 0 ≤ x) : 0 ≤ roundDouble x := by
  unfold roundDouble
  have hpos := two_zpow_pos (ulpExponent x)
  have hq : 0 ≤ x / 2 ^ ulpExponent x := div_nonneg hx hpos.le
  have hfl : 0 ≤ ⌊x / 2 ^ ulpExponent x⌋ := Int.floor_nonneg.mpr hq
  have hr : (0 : Int) ≤ roundHalfEven (x / 2 ^ ulpExponent x) :=
    le_trans hfl (roundHalfEven_bounds _).1
  have hr' : (0 : ℚ) ≤ (roundHalfEven (x / 2 ^ ulpExponent x) : ℚ) := by exact_mod_cast hr
  exact mul_nonneg hr' hpos.le

/-- The exponent of a positive rational strictly between two powers of two. -/
theorem log_eq_of_bounds (x : ℚ) (k : Int) (h₁ : (2 : ℚ) ^ k ≤ x) (h₂ : x < 2 ^ (k + 1)) :
    Int.log 2 x = k := by
  have hx : 0 < x := lt_of_lt_of_le (two_zpow_pos k) h₁
  have ha : k ≤ Int.log 2 x := by
    rw [← Int.zpow_le_iff_le_log (by norm_num) hx]
    exact_mod_cast h₁
  have hb : Int.log 2 x < k + 1 := by
    rw [← Int.lt_zpow_iff_log_lt (by norm_num) hx]
    exact_mod_cast h₂
  omega

theorem log_lt_of_lt (x : ℚ) (m : Int) (hx : 0 ≤ x) (hm : 0 < m) (h : x < 2 ^ m) :
    Int.log 2 x < m := by
  rcases eq_or_lt_of_le hx with h0 | hpos
  · rw [← h0, Int.log_zero_right]
    exact hm
  · rw [← Int.lt_zpow_iff_log_lt (by norm_num) hpos]
    exact_mod_cast h

/-- A number written with at most 53 significant bits and a binary exponent
no smaller than -1074 is a double. -/
theorem roundDouble_zero : roundDouble 0 = 0 := by
  simp [roundDouble, roundHalfEven]

theorem roundDouble_dyadic (a s : Nat) (ha : a < 2 ^ 53) (hs : s ≤ 1074) :
    roundDouble ((a : ℚ) / 2 ^ s) = (a : ℚ) / 2 ^ s := by
  rcases Nat.eq_zero_or_pos a with h0 | hapos
  · subst h0
    simp [roundDouble_zero]
  have hsp : (0 : ℚ) < 2 ^ s := pow_pos (by norm_num) s
  have hpos : (0 : ℚ) < (a : ℚ) / 2 ^ s := div_pos (by exact_mod_cast hapos) hsp
  -- the spacing is no coarser than 2 ^ (-s)
  have he : ulpExponent ((a : ℚ) / 2 ^ s) ≤ -(s : Int) := by
    unfold ulpExponent
    rw [abs_of_pos hpos]
    have hlt : (a : ℚ) / 2 ^ s < 2 ^ ((53 : Int) - s) := by
      rw [zpow_sub₀ (by norm_num : (2 : ℚ) ≠ 0), zpow_natCast]
      apply div_lt_div_of_pos_right _ hsp
      exact_mod_cast ha
    have hl : Int.log 2 ((a : ℚ) / 2 ^ s) < 53 - s := by
      rw [← Int.lt_zpow_iff_log_lt (by norm_num) hpos]
      exact_mod_cast hlt
    omega
  obtain ⟨d, hd⟩ : ∃ d : Nat, -(s : Int) - ulpExponent ((a : ℚ) / 2 ^ s) = d :=
    ⟨(-(s : Int) - ulpExponent ((a : ℚ) / 2 ^ s)).toNat, by omega⟩
  have hsplit : (2 : ℚ) ^ ulpExponent ((a : ℚ) / 2 ^ s) = 2 ^ (-(s : Int)) / 2 ^ (d : Int) := by
    rw [← zpow_sub₀ (by norm_num : (2 : ℚ) ≠ 0)]
    congr 1
    omega
  have hdp : (0 : ℚ) < 2 ^ d := pow_pos (by norm_num) d
  have hq : (a : ℚ) / 2 ^ s / 2 ^ ulpExponent ((a : ℚ) / 2 ^ s) = ((a * 2 ^ d : Nat) : Int) := by
    rw [hsplit, zpow_neg, zpow_natCast, zpow_natCast]
    push_cast
    field_simp
    ring
  unfold roundDouble
  rw [hq, roundHalfEven_intCast, hsplit, zpow_neg, zpow_natCast, zpow_natCast]
  push_cast
  field_simp
  ring

/-- Rounding a non-negative number below 64 gives at most 64. -/
theorem roundDouble_le_64 (x : ℚ) (h₀ : 0 ≤ x) (h₁ : x < 64) : roundDouble x ≤ 64 := by
  have he : ulpExponent x ≤ -47 := by
    unfold ulpExponent
    rw [abs_of_nonneg h₀]
    have := log_lt_of_lt x 6 h₀ (by norm_num) (by norm_num; exact h₁)
    omega
  obtain ⟨d, hd⟩ : ∃ d : Nat, (6 : Int) - ulpExponent x = d :=
    ⟨((6 : Int) - ulpExponent x).toNat, by omega⟩
  have hpos := two_zpow_pos (ulpExponent x)
  have h64 : (64 : ℚ) = ((2 ^ d : Nat) : Int) * 2 ^ ulpExponent x := by
    push_cast
    rw [← zpow_natCast, ← zpow_add₀ (by norm_num : (2 : ℚ) ≠ 0), ← hd]
    norm_num
  have hq : x / 2 ^ ulpExponent x ≤ (((2 ^ d : Nat) : Int) : ℚ) := by
    rw [div_le_iff₀ hpos, ← h64]
    exact h₁.le
  have hr := roundHalfEven_le_of_le _ _ hq
  have hr' : (roundHalfEven (x / 2 ^ ulpExponent x) : ℚ) ≤ (((2 ^ d : Nat) : Int) : ℚ) := by
    exact_mod_cast hr
  unfold roundDouble
  rw [h64]
  exact mul_le_mul_of_nonneg_right hr' hpos.le

/-- A double in `[1/2, 1)` is a multiple of `2 ^ (-53)` below 1. -/
theorem double_below_one (r : ℚ) (hd : isDouble r = true) (h₀ : 1 / 2 ≤ r) (h₁ : r < 1) :
    ∃ j : Int, r = (j : ℚ) / 2 ^ 53 ∧ j ≤ 2 ^ 53 - 1 := by
  have hr : roundDouble r = r := by simpa [isDouble] using hd
  have hlog : Int.log 2 r = -1 :=
    log_eq_of_bounds r (-1) (by norm_num; linarith) (by norm_num; exact h₁)
  have he : ulpExponent r = -53 := by
    unfold ulpExponent
    rw [abs_of_nonneg (by linarith), hlog]
    norm_num
  unfold roundDouble at hr
  rw [he] at hr
  refine ⟨roundHalfEven (r / 2 ^ (-53 : Int)), ?_, ?_⟩
  · have h53 : (2 : ℚ) ^ (-53 : Int) = 1 / 2 ^ 53 := by
      rw [zpow_neg, one_div]
      norm_num
    rw [h53] at hr
    rw [h53]
    linarith [hr]
  · have hlt : (roundHalfEven (r / 2 ^ (-53 : Int)) : ℚ) < 2 ^ 53 := by
      have h53 : (2 : ℚ) ^ (-53 : Int) = 1 / 2 ^ 53 := by
        rw [zpow_neg, one_div]
        norm_num
      rw [h53] at hr
      have : (roundHalfEven (r / 2 ^ (-53 : Int)) : ℚ) = r * 2 ^ 53 := by
        rw [h53]
        field_simp at hr ⊢
        linarith [hr]
      rw [this]
      nlinarith
    have : roundHalfEven (r / 2 ^ (-53 : Int)) < 2 ^ 53 := by exact_mod_cast hlt
    omega

/-- The product of a double in `[0, 1)` with 100, rounded to a double, stays
below 100. -/
theorem roundDouble_mul_100_lt (r : ℚ) (hd : isDouble r = true) (h₀ : 0 ≤ r) (h₁ : r < 1) :
    roundDouble (r * 100) < 100 := by
  by_cases hsmall : r * 100 < 64
  · have := roundDouble_le_64 (r * 100) (by positivity) hsmall
    linarith
  · have h64 : (64 : ℚ) ≤ r * 100 := not_lt.mp hsmall
    obtain ⟨j, hj, hjle⟩ := double_below_one r hd (by linarith) h₁
    have hlog : Int.log 2 (r * 100) = 6 :=
      log_eq_of_bounds (r * 100) 6 (by norm_num; exact h64) (by norm_num; linarith)
    have he : ulpExponent (r * 100) = -46 := by
      unfold ulpExponent
      rw [abs_of_nonneg (by positivity), hlog]
      norm_num
    have h46 : (2 : ℚ) ^ (-46 : Int) = 1 / 2 ^ 46 := by
      rw [zpow_neg, one_div]
      norm_num
    have hjq : (j : ℚ) ≤ 2 ^ 53 - 1 := by exact_mod_cast hjle
    have hq : r * 100 / 2 ^ (-46 : Int) < ((25 * 2 ^ 48 - 1 : Int) : ℚ) + 1 / 2 := by
      rw [h46, hj]
      push_cast
      norm_num at hjq ⊢
      linarith
    have hr := roundHalfEven_le _ _ hq
    have hr' : (roundHalfEven (r * 100 / 2 ^ (-46 : Int)) : ℚ) ≤ ((25 * 2 ^ 48 - 1 : Int) : ℚ) := by
      exact_mod_cast hr
    unfold roundDouble
    rw [he, h46]
    push_cast at hr'
    norm_num at hr' ⊢
    linarith

theorem activeUsers_bounds (r : ℚ) (hd : isDouble r = true) (h₀ : 0 ≤ r) (h₁ : r < 1) :
    1 ≤ activeUsers r ∧ activeUsers r ≤ 100 := by
  have hnn : 0 ≤ ⌊roundDouble (r * 100)⌋ :=
    Int.floor_nonneg.mpr (roundDouble_nonneg _ (by positivity))
  have hlt : ⌊roundDouble (r * 100)⌋ < 100 := by
    rw [Int.floor_lt]
    exact_mod_cast roundDouble_mul_100_lt r hd h₀ h₁
  unfold activeUsers
  omega

/-- Every integer from 1 to 100 is the value of some double draw in `[0, 1)`:
a multiple of 1/128. -/
theorem activeUsers_onto (n : Int) (hn₁ : 1 ≤ n) (hn₂ : n ≤ 100) :
    ∃ r : ℚ, isDouble r = true ∧ 0 ≤ r ∧ r < 1 ∧ activeUsers r = n := by
  obtain ⟨k, hk⟩ : ∃ k : Nat, (k : Int) = (32 * (n - 1) + 24) / 25 :=
    ⟨((32 * (n - 1) + 24) / 25).toNat, by omega⟩
  have hk128 : k < 128 := by omega
  refine ⟨(k : ℚ) / 2 ^ 7, ?_, by positivity, ?_, ?_⟩
  · have := roundDouble_dyadic k 7 (by omega) (by norm_num)
    simp [isDouble, this]
  · rw [div_lt_one (by norm_num)]
    norm_num
    exact hk128
  · have hprod : (k : ℚ) / 2 ^ 7 * 100 = ((25 * k : Nat) : ℚ) / 2 ^ 5 := by
      push_cast
      ring
    have hfix := roundDouble_dyadic (25 * k) 5 (by omega) (by norm_num)
    unfold activeUsers
    rw [hprod, hfix]
    have hfl : ⌊((25 * k : Nat) : ℚ) / 2 ^ 5⌋ = n - 1 := by
      rw [Int.floor_eq_iff]
      have h1 : 32 * (n - 1) ≤ 25 * (k : Int) := by omega
      have h2 : 25 * (k : Int) < 32 * n := by omega
      have h1q : (32 : ℚ) * ((n : ℚ) - 1) ≤ 25 * (k : ℚ) := by exact_mod_cast h1
      have h2q : (25 : ℚ) * (k : ℚ) < 32 * (n : ℚ) := by exact_mod_cast h2
      constructor
      · push_cast
        rw [le_div_iff₀ (by norm_num)]
        norm_num
        linarith
      · push_cast
        rw [div_lt_iff₀ (by norm_num)]
        norm_num
        linarith
    rw [hfl]
    omega


theorem isDouble_half : isDouble (1 / 2) = true := by
  have h := roundDouble_dyadic 1 1 (by norm_num) (by norm_num)
  norm_num at h
  unfold isDouble
  exact decide_eq_true h

theorem activeUsers_half : activeUsers (1 / 2) = 51 := by
  have h := roundDouble_dyadic 50 0 (by norm_num) (by norm_num)
  norm_num at h
  unfold activeUsers
  norm_num [h]

/-! ## The claims -/

/-- C1: starting from the fresh registry, after any sequence of completed
requests (and generator ticks) the `app_requests_total` series of every label
triple holds exactly the number of prior requests whose method, route label
(pattern of the matched route, else raw path) and response status are those of
the triple, with no series at all when there was none.  A subsequent
`GET /metrics` answers 200 with the exposition content type and, as body, the
serialization of exactly that registry, which it leaves alone; the request
doing the read is counted only when it completes, which raises the series
`(GET, /metrics, 200)` to one more than the value in the body it returned. -/
theorem requests_total_matches_prior_requests
    (serialize : Registry → String) (v : Body → Bool) (events : List Event) (labels : Labels)
    (path : String) (start finish : Int) (heapUsed : Nat) :
    counterValue (run events).requestCounter labels = requestCount labels events ∧
    seriesFind (run events).requestCounter labels =
      (if requestCount labels events = 0 then none
       else some (requestCount labels events)) ∧
    runHandler (metricsHandler { method := "GET", validatorsMatch := v } (fun reg => .ok (serialize reg))) (run events) =
      (.ok (),
        { res := { statusCode := 200, contentType := some contentType, writes := 1,
                   sent := [{ status := 200, contentType := some contentType,
                              body := .text (serialize (run events)) }] },
          registry := run events }) ∧
    counterValue
        (run (events ++
          [.request
            { method := "GET", path := path, matched := some .metrics,
              res := (runHandler (metricsHandler { method := "GET", validatorsMatch := v } (fun reg => .ok (serialize reg)))
                (run events)).2.res,
              start := start, finish := finish, heapUsed := heapUsed }])).requestCounter
        { method := "GET", route := "/metrics", status_code := 200 } =
      requestCount { method := "GET", route := "/metrics", status_code := 200 } events + 1 := by
  have hsent : runHandler (metricsHandler { method := "GET", validatorsMatch := v } (fun reg => .ok (serialize reg)))
      (run events) =
      (.ok (),
        { res := { statusCode := 200, contentType := some contentType, writes := 1,
                   sent := [{ status := 200, contentType := some contentType,
                              body := .text (serialize (run events)) }] },
          registry := run events }) := rfl
  refine ⟨run_requestCounter_value events labels, run_requestCounter_find events labels,
    hsent, ?_⟩
  rw [run_requestCounter_value, requestCount_append, hsent]
  simp [requestCount, countsFor]

/-- C2: from every registry state `GET /simulate-error` answers once, with
status 500 and a JSON error payload, raises the `simulated_error` series of
`app_errors_total` by exactly 1 and leaves every other series of that counter
and every other instrument unchanged; from the initial state the series is 1
after one call. -/
theorem simulate_error_returns_500_and_counts_once (v : Body → Bool) (reg : Registry)
    (errorType : String) :
    (runHandler (simulateErrorHandler { method := "GET", validatorsMatch := v }) reg).1 = .ok () ∧
    (runHandler (simulateErrorHandler { method := "GET", validatorsMatch := v }) reg).2.res.sent =
      [{ status := 500, contentType := some "application/json; charset=utf-8",
         body := .json [("error", .str "Erro simulado para teste")] }] ∧
    counterValue (runHandler (simulateErrorHandler { method := "GET", validatorsMatch := v }) reg).2.registry.errorCounter
        "simulated_error" = counterValue reg.errorCounter "simulated_error" + 1 ∧
    seriesFind (runHandler (simulateErrorHandler { method := "GET", validatorsMatch := v }) reg).2.registry.errorCounter
        errorType =
      (if errorType = "simulated_error" then
        some (counterValue reg.errorCounter "simulated_error" + 1)
       else seriesFind reg.errorCounter errorType) ∧
    (runHandler (simulateErrorHandler { method := "GET", validatorsMatch := v }) reg).2.registry =
      { reg with errorCounter :=
          (runHandler (simulateErrorHandler { method := "GET", validatorsMatch := v }) reg).2.registry.errorCounter } ∧
    counterValue
        (runHandler (simulateErrorHandler { method := "GET", validatorsMatch := v }) Registry.initial).2.registry.errorCounter
        "simulated_error" = 1 := by
  simp only [runHandler_simulateError]
  refine ⟨trivial, trivial, ?_, ?_, trivial, ?_⟩
  · rw [counterValue_inc]
    simp
  · simp only [counterInc, seriesFind_update, counterValue]
  · rfl

/-- C5: run once for a request with method `m`, raw path `q`, optional matched
route pattern `p`, response status `res.statusCode`, arrival time `start` and
completion time `now`, the completion callback returns normally, adds 1 to
exactly the `app_requests_total` series labelled `(m, r, status)`, records
exactly one observation of `(now - start) / 1000` into the
`app_response_time_seconds` series with the same labels (count up by one, the
duration added to the sum), where `r` is `p` when a route matched and `q`
otherwise, sets `app_memory_usage_bytes` to the sampled heap usage and changes
no other series, nor the response object. -/
theorem finish_callback_records_one_request (m q : String) (p : Option String) (res : Res)
    (start now : Int) (heapUsed : Nat) (reg : Registry) (other : Labels) :
    runFinish promClient { method := m, path := q, route := p } res start now heapUsed reg =
      (.ok (), { res := res,
                 registry := onFinish { method := m, path := q, route := p } res start now
                   heapUsed reg }) ∧
    seriesFind (onFinish { method := m, path := q, route := p } res start now heapUsed
        reg).requestCounter other =
      (if other = { method := m, route := p.getD q, status_code := res.statusCode } then
        some (counterValue reg.requestCounter other + 1)
       else seriesFind reg.requestCounter other) ∧
    seriesFind (onFinish { method := m, path := q, route := p } res start now heapUsed
        reg).responseTimeHistogram other =
      (if other = { method := m, route := p.getD q, status_code := res.statusCode } then
        some (observeSeries buckets (((now - start : Int) : ℚ) / 1000)
          ((seriesFind reg.responseTimeHistogram other).getD (emptyHistogram buckets)))
       else seriesFind reg.responseTimeHistogram other) ∧
    histogramCount (onFinish { method := m, path := q, route := p } res start now heapUsed
        reg).responseTimeHistogram other =
      histogramCount reg.responseTimeHistogram other +
        (if other = { method := m, route := p.getD q, status_code := res.statusCode }
         then 1 else 0) ∧
    (onFinish { method := m, path := q, route := p } res start now heapUsed reg).memoryGauge =
      heapUsed ∧
    (onFinish { method := m, path := q, route := p } res start now heapUsed reg).errorCounter =
      reg.errorCounter ∧
    (onFinish { method := m, path := q, route := p } res start now heapUsed
        reg).activeUsersGauge = reg.activeUsersGauge := by
  refine ⟨rfl, ?_, ?_, ?_, rfl, rfl, rfl⟩
  · simp only [onFinish_eq, routeLabel_eq, counterInc, seriesFind_update, counterValue]
    by_cases h : other = { method := m, route := p.getD q, status_code := res.statusCode }
    · subst h
      simp
    · simp [h]
  · simp only [onFinish_eq, routeLabel_eq, histogramObserve, seriesFind_update]
    by_cases h : other = { method := m, route := p.getD q, status_code := res.statusCode }
    · subst h
      simp
    · simp [h]
  · simp only [onFinish_eq, routeLabel_eq, histogramCount_observe]

/-- C10: in every state reachable from the initial registry by completed
requests and generator ticks in any order, the value of the
`app_requests_total` series of every label triple equals the observation count
of the `app_response_time_seconds` series with the same labels, and a series
exists in one instrument exactly when it exists in the other. -/
theorem requests_total_equals_histogram_count (events : List Event) (labels : Labels) :
    counterValue (run events).requestCounter labels =
      histogramCount (run events).responseTimeHistogram labels ∧
    (seriesFind (run events).requestCounter labels).isSome =
      (seriesFind (run events).responseTimeHistogram labels).isSome := by
  have h := run_histogram_find events labels
  constructor
  · rw [counterValue, histogramCount, h]
  · rw [← h]
    cases seriesFind (run events).responseTimeHistogram labels <;> rfl

/-- C3 (the code breaks it): `GET /` performs two terminal writes, not one.
The first `send` puts the response on the wire (the 200 text response, or 304
without body when the request is fresh); the second `send` is made on the
finished response and throws, so the handler ends with an error instead of
returning. -/
theorem root_handler_sends_twice (v : Body → Bool) (toLocaleString : Int → String)
    (now : Int) (reg : Registry) :
    runHandler (rootHandler { method := "GET", validatorsMatch := v } toLocaleString now) reg =
      (.error headersSentError,
        { res := { statusCode :=
                     if v (.text
                       "Prometheus + Grafana + Kubernetes + NGINX - Sistema de Monitoramento")
                     then 304 else 200,
                   contentType := none, writes := 2,
                   sent := [if v (.text
                       "Prometheus + Grafana + Kubernetes + NGINX - Sistema de Monitoramento")
                     then { status := 304, contentType := none, body := .empty }
                     else { status := 200, contentType := some "text/html; charset=utf-8",
                            body := .text
                              "Prometheus + Grafana + Kubernetes + NGINX - Sistema de Monitoramento" }] },
          registry := reg }) := by
  unfold runHandler rootHandler resSend
  rw [handlerRun_bind, sendBody_get_200]
  cases v (.text "Prometheus + Grafana + Kubernetes + NGINX - Sistema de Monitoramento") <;>
    rfl

/-- C4 as stated fails: with a counter increment that throws, the completion
callback ends by raising that error (nothing is recorded); with a histogram
observation that throws it raises too, after the counter was incremented and
before the memory gauge is set. -/
theorem finish_callback_propagates_instrument_error :
    runFinish throwingInc { method := "GET", path := "/users", route := some "/users" }
        { statusCode := 200, contentType := none, writes := 1, sent := [] } 0 5 1024
        Registry.initial =
      (.error (.errorObject "Error" "increment failed"),
        { res := { statusCode := 200, contentType := none, writes := 1, sent := [] },
          registry := Registry.initial }) ∧
    runFinish throwingObserve { method := "GET", path := "/users", route := some "/users" }
        { statusCode := 200, contentType := none, writes := 1, sent := [] } 0 5 1024
        Registry.initial =
      (.error (.errorObject "Error" "observe failed"),
        { res := { statusCode := 200, contentType := none, writes := 1, sent := [] },
          registry := { Registry.initial with
            requestCounter :=
              [({ method := "GET", route := "/users", status_code := 200 }, 1)] } }) := by
  constructor <;> rfl

/-- C4, amended: the completion callback has no handler for a throwing metric
update.  The first update that throws ends the callback with that error, the
updates before it stay in the registry and the ones after it are not
performed; when none throws the callback returns normally.  In every case the
response object is left as it was. -/
theorem finish_callback_stops_at_first_error (ops : Instruments) (req : Req) (res : Res)
    (start now : Int) (heapUsed : Nat) (reg : Registry) :
    runFinish ops req res start now heapUsed reg =
      (match ops.inc
          { method := req.method, route := routeLabel req, status_code := res.statusCode }
          reg with
       | .error e => (.error e, { res := res, registry := reg })
       | .ok reg₁ =>
         match ops.observe
            { method := req.method, route := routeLabel req, status_code := res.statusCode }
            (((now - start : Int) : ℚ) / 1000) reg₁ with
         | .error e => (.error e, { res := res, registry := reg₁ })
         | .ok reg₂ =>
           match ops.setMemory heapUsed reg₂ with
           | .error e => (.error e, { res := res, registry := reg₂ })
           | .ok reg₃ => (.ok (), { res := res, registry := reg₃ })) := by
  cases h₁ : ops.inc
      { method := req.method, route := routeLabel req, status_code := res.statusCode } reg with
  | error e =>
    simp [runFinish, finishCallback, metricUpdate, ExceptT.run, bind, ExceptT.bind, ExceptT.mk,
      ExceptT.bindCont, StateT.bind, StateT.run, get, getThe, MonadStateOf.get, StateT.get,
      liftM, monadLift, MonadLift.monadLift, ExceptT.lift, StateT.map, Functor.map, pure,
      ExceptT.pure, StateT.pure, set, StateT.set, throw, throwThe, MonadExceptOf.throw, h₁]
  | ok reg₁ =>
    cases h₂ : ops.observe
        { method := req.method, route := routeLabel req, status_code := res.statusCode }
        (((now - start : Int) : ℚ) / 1000) reg₁ with
    | error e =>
      push_cast at h₂
      simp [runFinish, finishCallback, metricUpdate, ExceptT.run, bind, ExceptT.bind,
        ExceptT.mk, ExceptT.bindCont, StateT.bind, StateT.run, get, getThe, MonadStateOf.get,
        StateT.get, liftM, monadLift, MonadLift.monadLift, ExceptT.lift, StateT.map,
        Functor.map, pure, ExceptT.pure, StateT.pure, set, StateT.set, throw, throwThe,
        MonadExceptOf.throw, h₁, h₂]
    | ok reg₂ =>
      push_cast at h₂
      cases h₃ : ops.setMemory heapUsed reg₂ with
      | error e =>
        simp [runFinish, finishCallback, metricUpdate, ExceptT.run, bind, ExceptT.bind,
          ExceptT.mk, ExceptT.bindCont, StateT.bind, StateT.run, get, getThe,
          MonadStateOf.get, StateT.get, liftM, monadLift, MonadLift.monadLift, ExceptT.lift,
          StateT.map, Functor.map, pure, ExceptT.pure, StateT.pure, set, StateT.set, throw,
          throwThe, MonadExceptOf.throw, h₁, h₂, h₃]
      | ok reg₃ =>
        simp [runFinish, finishCallback, metricUpdate, ExceptT.run, bind, ExceptT.bind,
          ExceptT.mk, ExceptT.bindCont, StateT.bind, StateT.run, get, getThe,
          MonadStateOf.get, StateT.get, liftM, monadLift, MonadLift.monadLift, ExceptT.lift,
          StateT.map, Functor.map, pure, ExceptT.pure, StateT.pure, set, StateT.set, throw,
          throwThe, MonadExceptOf.throw, h₁, h₂, h₃]

/-- C6 as stated fails: after the single observation 0.05 the counts per bucket
are 1, 0, 0, 0, 0, 0.  They add up to the total count but go down from the
first bucket to the second; the cumulative counts 1, 1, 1, 1, 1, 1 never go
down but add up to 6, not to the total count 1.  Neither reading of "bucket
count" gives both halves of the claim. -/
theorem histogram_bucket_counts_not_both :
    (observeAll buckets [0.05]).bucketCounts = [1, 0, 0, 0, 0, 0] ∧
    (observeAll buckets [0.05]).count = 1 ∧
    ¬ ((observeAll buckets [0.05]).bucketCounts.sum = (observeAll buckets [0.05]).count ∧
        nonDecreasing (observeAll buckets [0.05]).bucketCounts = true) ∧
    cumulativeCounts (observeAll buckets [0.05]) = [1, 1, 1, 1, 1, 1] ∧
    ¬ ((cumulativeCounts (observeAll buckets [0.05])).sum = (observeAll buckets [0.05]).count ∧
        nonDecreasing (cumulativeCounts (observeAll buckets [0.05])) = true) := by
  have h : observeAll buckets [0.05] =
      { bucketCounts := [1, 0, 0, 0, 0, 0], count := 1, sum := 0.05 } := by
    norm_num [observeAll, observeSeries, emptyHistogram, findBound, buckets, bumpAt,
      List.replicate]
  rw [h]
  refine ⟨rfl, rfl, ?_, rfl, ?_⟩
  · simp [nonDecreasing]
  · simp [cumulativeCounts, cumulativeFrom]

/-- C6, amended: for every finite sequence of values observed into the
histogram with bounds 0.1, 0.5, 1, 2, 5 and the +infinity bucket, the six
per-bucket counts add up to the total count (which is the number of values),
and the cumulative bucket counts are non-decreasing as the bound increases,
the last one (+infinity) being the total count. -/
theorem histogram_counts_sum_and_cumulative (values : List ℚ) :
    (observeAll buckets values).bucketCounts.length = 6 ∧
    (observeAll buckets values).bucketCounts.sum = (observeAll buckets values).count ∧
    (observeAll buckets values).count = values.length ∧
    nonDecreasing (cumulativeCounts (observeAll buckets values)) = true ∧
    (cumulativeCounts (observeAll buckets values)).getLast? =
      some (observeAll buckets values).count := by
  obtain ⟨h₁, h₂, h₃⟩ := foldl_observe_invariant buckets values (emptyHistogram buckets)
    (by simp [emptyHistogram]) (by simp [emptyHistogram])
  have hlen : (observeAll buckets values).bucketCounts.length = 6 := by
    simpa [observeAll, buckets] using h₁
  refine ⟨hlen, h₂, ?_, cumulativeFrom_nonDecreasing _ _, ?_⟩
  · simpa [observeAll, emptyHistogram] using h₃
  · have hsum : (observeAll buckets values).bucketCounts.sum =
        (observeAll buckets values).count := h₂
    unfold cumulativeCounts
    cases hb : (observeAll buckets values).bucketCounts with
    | nil => simp [hb] at hlen
    | cons c cs =>
      rw [cumulativeFrom_getLast, ← hsum, hb]
      simp

/-- C7: for every draw `r` that `Math.random()` can return, a double with
`0 ≤ r < 1`, the value `floor(r * 100) + 1` computed in double arithmetic, which
`GET /users` hands to `res.json` as `active_users` (it goes out with status 200
unless the request is fresh) and which a generator tick sets into
`app_active_users`, is an integer between 1 and 100; and every integer from 1
to 100 is produced by some such draw. -/
theorem active_users_between_1_and_100 (r : ℚ) (v : Body → Bool) (reg : Registry)
    (hd : isDouble r = true) (h₀ : 0 ≤ r) (h₁ : r < 1) :
    1 ≤ activeUsers r ∧ activeUsers r ≤ 100 ∧
    (runHandler (usersHandler { method := "GET", validatorsMatch := v } r) reg).2.res.sent =
      [if v (.json [("active_users", .num (activeUsers r))]) then
         { status := 304, contentType := none, body := .empty }
       else
         { status := 200, contentType := some "application/json; charset=utf-8",
           body := .json [("active_users", .num (activeUsers r))] }] ∧
    (generatorTick r reg).activeUsersGauge = activeUsers r ∧
    ∀ n : Int, 1 ≤ n → n ≤ 100 →
      ∃ r' : ℚ, isDouble r' = true ∧ 0 ≤ r' ∧ r' < 1 ∧ activeUsers r' = n := by
  refine ⟨(activeUsers_bounds r hd h₀ h₁).1, (activeUsers_bounds r hd h₀ h₁).2, ?_, rfl,
    activeUsers_onto⟩
  unfold runHandler usersHandler resJson
  rw [sendBody_get_200]

/-- The draw 1/2 is a double in `[0, 1)` and yields 51 active users. -/
theorem active_users_between_1_and_100_witness :
    isDouble (1 / 2) = true ∧ (0 : ℚ) ≤ 1 / 2 ∧ (1 / 2 : ℚ) < 1 ∧ activeUsers (1 / 2) = 51 ∧
    1 ≤ activeUsers (1 / 2) ∧ activeUsers (1 / 2) ≤ 100 :=
  ⟨isDouble_half, by norm_num, by norm_num, activeUsers_half,
    (active_users_between_1_and_100 (1 / 2) (fun _ => false) Registry.initial isDouble_half
      (by norm_num) (by norm_num)).1,
    (active_users_between_1_and_100 (1 / 2) (fun _ => false) Registry.initial isDouble_half
      (by norm_num) (by norm_num)).2.1⟩

/-- C8 (the code breaks it): when `serialize()` succeeds `GET /metrics` answers
once, with the exposition content type and the serialized text, and when it
fails with a thrown string it answers once with status 500 and that string.
When it fails with an `Error` object the `catch` block sets status 500 and
hands the object to `res.end`, which rejects it: no response goes out and the
`TypeError` escapes the handler. -/
theorem metrics_handler_error_object_escapes (v : Body → Bool) (reg : Registry)
    (text detail name message : String) :
    runHandler (metricsHandler { method := "GET", validatorsMatch := v } (fun _ => .ok text)) reg =
      (.ok (),
        { res := { statusCode := 200, contentType := some contentType, writes := 1,
                   sent := [{ status := 200, contentType := some contentType,
                              body := .text text }] },
          registry := reg }) ∧
    runHandler (metricsHandler { method := "GET", validatorsMatch := v } (fun _ => .error (.str detail))) reg =
      (.ok (),
        { res := { statusCode := 500, contentType := some contentType, writes := 1,
                   sent := [{ status := 500, contentType := some contentType,
                              body := .text detail }] },
          registry := reg }) ∧
    runHandler (metricsHandler { method := "GET", validatorsMatch := v } (fun _ => .error (.errorObject name message))) reg =
      (.error invalidChunkError,
        { res := { statusCode := 500, contentType := some contentType, writes := 1,
                   sent := [] },
          registry := reg }) := by
  refine ⟨rfl, rfl, rfl⟩

/-- C9 as stated fails: a `GET /healthz` whose conditional headers match (for
instance `If-None-Match: *`) is answered with status 304 and no body, not with
status 200 and the JSON body. -/
theorem healthz_conditional_get_is_304 :
    (runHandler
      (healthzHandler { method := "GET", validatorsMatch := fun _ => true }
        (fun _ => "2026-11-04T12:00:00.000Z") 1793793600000 (3 / 2))
      Registry.initial).2.res.sent =
      [{ status := 304, contentType := none, body := .empty }] := by
  rfl

/-- C9, amended: from every registry state, at every current time and for every
process uptime `u ≥ 0`, `GET /healthz` returns normally after exactly one
terminal write, having emitted exactly one response.  When the request is
fresh (its conditional headers match) that response is 304 without a body;
otherwise it has status 200 and the JSON body
`{status: "OK", timestamp: ISO rendering of the current time, uptime: u}`,
whose uptime is therefore `≥ 0`.  The registry is left as it was. -/
theorem healthz_returns_200_unless_fresh (v : Body → Bool) (toISOString : Int → String)
    (now : Int) (u : ℚ) (reg : Registry) (hu : 0 ≤ u) :
    runHandler (healthzHandler { method := "GET", validatorsMatch := v } toISOString now u) reg =
      (.ok (),
        { res := { statusCode :=
                     if v (.json [("status", .str "OK"), ("timestamp", .str (toISOString now)),
                                  ("uptime", .num u)]) then 304 else 200,
                   contentType := none, writes := 1,
                   sent := [if v (.json [("status", .str "OK"),
                                         ("timestamp", .str (toISOString now)),
                                         ("uptime", .num u)]) then
                              { status := 304, contentType := none, body := .empty }
                            else
                              { status := 200,
                                contentType := some "application/json; charset=utf-8",
                                body := .json [("status", .str "OK"),
                                               ("timestamp", .str (toISOString now)),
                                               ("uptime", .num u)] }] },
          registry := reg }) ∧
    ∃ uptime : ℚ,
      (Body.json [("status", .str "OK"), ("timestamp", .str (toISOString now)),
                  ("uptime", .num u)]).field "uptime" = some (.num uptime) ∧
      0 ≤ uptime := by
  refine ⟨?_, u, ?_, hu⟩
  · unfold runHandler healthzHandler resJson
    rw [handlerRun_bind]
    exact sendBody_get_200 v _ _ reg
  · simp [Body.field, List.lookup]

/-- At uptime 3/2 an unconditional health check is answered once, with status
200 and the JSON body. -/
theorem healthz_returns_200_unless_fresh_witness :
    (0 : ℚ) ≤ 3 / 2 ∧
    (runHandler
      (healthzHandler { method := "GET", validatorsMatch := fun _ => false }
        (fun _ => "2026-11-04T12:00:00.000Z") 1793793600000 (3 / 2))
      Registry.initial).2.res.sent =
      [{ status := 200, contentType := some "application/json; charset=utf-8",
         body := .json [("status", .str "OK"),
                        ("timestamp", .str "2026-11-04T12:00:00.000Z"),
                        ("uptime", .num (3 / 2))] }] :=
  ⟨by norm_num,
    by rw [(healthz_returns_200_unless_fresh (fun _ => false)
      (fun _ => "2026-11-04T12:00:00.000Z") 1793793600000 (3 / 2) Registry.initial
      (by norm_num)).1]; rfl⟩

end Server
